import Mathlib

/-!
Verification of the dispute-reconciliation core of the cb-portal repository.

The TypeScript sources are shallowly embedded as follows:
* JavaScript strings become `String`; numbers that carry currency amounts
  become `ℚ` (exact rationals standing for the float values the code
  manipulates); the fallible coercions `Number(...)` and `parseFloat(...)`
  become `Option ℚ` with `none` standing for `NaN`.
* A JS object row (header string to cell value) becomes an association list
  `List (String × String)`; an absent cell is modelled as the empty string,
  which is observationally equivalent at every use site of the embedded code
  (each one stringifies, strips non-digit characters, or applies a falsy
  default before use).
* `Date.toLocaleDateString()` is environment dependent, so the date formatter
  returns an explicit sum `DateOut`: either the epoch-millisecond payload the
  code would hand to the locale renderer, or the string it passes through.
* Optional record fields (`opayoReference?`, `penairMatch?`, ...) are modelled
  as `String` with `""` for `undefined`; the embedded code only tests them
  for JS falsiness, which coincides with equality to `""`.
-/

/-! ## Character and string helpers (JS primitives) -/

/-- Whitespace recognised by `String.prototype.trim` (ASCII subset, which is
the alphabet the embedded data uses). -/
def isWsChar (c : Char) : Bool := c == ' ' || c == '\t' || c == '\n' || c == '\r'

/-- JS `s.trim()`. -/
def jsTrim (s : String) : String :=
  String.mk (((s.toList.dropWhile isWsChar).reverse.dropWhile isWsChar).reverse)

/-- JS `toLowerCase` on one character (ASCII range, the only range exercised). -/
def lowerChar (c : Char) : Char :=
  if 65 ≤ c.toNat ∧ c.toNat ≤ 90 then Char.ofNat (c.toNat + 32) else c

/-- JS `s.toLowerCase()`. -/
def lowerStr (s : String) : String := String.mk (s.toList.map lowerChar)

/-- `s.replace(/[^a-z0-9]/g, "")`: keep lowercase letters and digits. -/
def keepAlnum (s : String) : String :=
  String.mk (s.toList.filter (fun c => c.isLower || c.isDigit))

/-- `s.replace(/[^0-9.-]+/g, "")`: keep digits, dots and minus signs. -/
def stripAmountChars (s : String) : String :=
  String.mk (s.toList.filter (fun c => c.isDigit || c == '.' || c == '-'))

/-- `s.replace(/[^0-9]/g, "")`: keep digits only. -/
def stripToDigits (s : String) : String :=
  String.mk (s.toList.filter (fun c => c.isDigit))

/-- JS `s.slice(-n)`: the last `n` characters (the whole string when shorter). -/
def sliceLast (n : Nat) (s : String) : String :=
  String.mk ((s.toList.reverse.take n).reverse)

/-- Decimal value of a digit list (most significant first). -/
def digitsToNat (l : List Char) : Nat :=
  l.foldl (fun a c => a * 10 + (c.toNat - 48)) 0

/-- Does `needle` occur as a contiguous run inside `hay`?  Models JS
`String.prototype.includes`. -/
def containsSub (hay needle : List Char) : Bool :=
  needle.isPrefixOf hay ||
    match hay with
    | [] => false
    | _ :: t => containsSub t needle

/-! ## JS numeric coercions

`Number(s)` accepts the string only when it is entirely a decimal literal
(empty string giving `0`); `parseFloat(s)` reads the longest decimal literal
at the front.  Both embeddings are stated for strings over the alphabet
`[0-9.-]`, which is the alphabet both call sites supply (every caller first
strips the other characters); exponent and hexadecimal forms therefore cannot
occur. -/

/-- Strict unsigned decimal: the whole list must be `digits`, `digits.digits`,
`digits.` or `.digits`. -/
def parseDecStrict (l : List Char) : Option ℚ :=
  let ds := l.takeWhile (fun c => c.isDigit)
  match l.drop ds.length with
  | [] => if ds.isEmpty then none else some (digitsToNat ds : ℚ)
  | '.' :: fs =>
      if (ds.isEmpty && fs.isEmpty) || !fs.all (fun c => c.isDigit) then none
      else some ((digitsToNat ds : ℚ) + (digitsToNat fs : ℚ) / 10 ^ fs.length)
  | _ => none

/-- JS `Number(s)` on a `[0-9.-]` string; `none` models `NaN`, and the empty
string coerces to `0`. -/
def jsNumber (s : String) : Option ℚ :=
  match s.toList with
  | [] => some 0
  | '-' :: rest => (parseDecStrict rest).map (fun q => -q)
  | l => parseDecStrict l

/-- Longest unsigned decimal at the front of the list, if any. -/
def parseDecLoose (l : List Char) : Option ℚ :=
  let ds := l.takeWhile (fun c => c.isDigit)
  match l.drop ds.length with
  | '.' :: r =>
      let fs := r.takeWhile (fun c => c.isDigit)
      if ds.isEmpty && fs.isEmpty then none
      else some ((digitsToNat ds : ℚ) + (digitsToNat fs : ℚ) / 10 ^ fs.length)
  | _ => if ds.isEmpty then none else some (digitsToNat ds : ℚ)

/-- JS `parseFloat(s)` on a `[0-9.-]` string; `none` models `NaN`. -/
def jsParseFloat (s : String) : Option ℚ :=
  match s.toList with
  | '-' :: rest => (parseDecLoose rest).map (fun q => -q)
  | l => parseDecLoose l

/-! ## Value normalizer (`cleanId`, comparator.ts lines 4-11) -/

/-- `s.replace(/\.0+$/, "")`: remove a final run of zeros together with the
dot right before it.  The regex match must end at the end of the string, and
at most one dot can be followed by zeros only, so taking the maximal zero run
at the end is exactly the regex semantics. -/
def stripDot0 (s : String) : String :=
  let r := s.toList.reverse
  let zs := r.takeWhile (fun c => c == '0')
  match zs, r.drop zs.length with
  | _ :: _, '.' :: rest => String.mk rest.reverse
  | _, _ => s

/-- `cleanId` from comparator.ts: trim, strip a trailing `.0...0`, lowercase.
The `null`/`undefined` guard of the source returns `""`, which this
string-level embedding reaches as `cleanId ""`. -/
def cleanId (val : String) : String :=
  lowerStr (stripDot0 (jsTrim val))

/-! ## Data model (types.ts)

Presentation-only fields of `DisputeRecord` (`originalRow`, `importDate`,
`sourceReport`, `_ts`) are omitted: no embedded function reads or writes
them. -/

structure DisputeRecord where
  cycle : String := ""
  merchant : String := ""
  dueDate : String := ""
  caseReference : String := ""
  reasonCode : String := ""
  reasonCategory : String := ""
  transactionDate : String := ""
  transactionAmount : String := ""
  datePost : String := ""
  disputeAmount : String := ""
  cardLast4 : String := ""
  opayoMatch : String := "N/A"
  opayoReference : String := ""
  bookingAddress : String := ""
  transAddress : String := ""
  penairMatch : String := ""
  folderNumber : String := ""
  travelDate : String := ""
  origin : String := ""
  destination : String := ""
  airlineCode : String := ""
  invoiceDate : String := ""
  returnDate : String := ""
  emailId : String := ""
deriving DecidableEq

structure OpayoRow where
  amount : ℚ
  last4 : String
  reference : String
  bookingAddress : String
  transAddress : String
deriving DecidableEq

structure PenairRow where
  inetRef : String
  folderNumber : String
  travelDate : String
  origin : String
  destination : String
  airlineCode : String
  invoiceDate : String
  returnDate : String
  emailId : String
deriving DecidableEq

/-! ## Delta detector (`findAnomalies`, comparator.ts lines 13-31) -/

/-- The loop body of `findAnomalies`: iterate `newData`, skip falsy or
sentinel references, push records whose trimmed reference is not in the
baseline set.  The `Set` of the source is modelled by the underlying list of
trimmed baseline references; `has` becomes `contains`. -/
def findAnomaliesLoop (existingRefs : List String) : List DisputeRecord → List DisputeRecord
  | [] => []
  | record :: rest =>
      let ref := jsTrim record.caseReference
      if ref == "" || ref == "N/A" then findAnomaliesLoop existingRefs rest
      else if existingRefs.contains ref then findAnomaliesLoop existingRefs rest
      else record :: findAnomaliesLoop existingRefs rest

/-- `findAnomalies` from comparator.ts. -/
def findAnomalies (baseData newData : List DisputeRecord) : List DisputeRecord :=
  findAnomaliesLoop (baseData.map (fun r => jsTrim r.caseReference)) newData

/-! ## Cross-reference resolver Stage A (`crossReferenceOpayo`, lines 33-73) -/

/-- The per-record body of the `anomalies.map` in `crossReferenceOpayo`.
`0.05` of the source is the rational `1/20`; `Number(...)` giving `NaN` is
the `none` branch. -/
def opayoStep (opayoData : List OpayoRow) (record : DisputeRecord) : DisputeRecord :=
  let recAmtOpt := jsNumber (stripAmountChars record.transactionAmount)
  let recLast4 := jsTrim record.cardLast4
  match recAmtOpt with
  | none => { record with opayoMatch := "N/A" }
  | some recAmt =>
      if recLast4.length < 4 ∨ recLast4 = "N/A" then
        { record with opayoMatch := "N/A" }
      else
        match opayoData.find? (fun op =>
            op.last4 == recLast4 && decide (|op.amount - recAmt| < 1/20)) with
        | some matchRecord =>
            { record with
                opayoMatch := "MATCH",
                opayoReference := matchRecord.reference,
                bookingAddress := matchRecord.bookingAddress,
                transAddress := matchRecord.transAddress }
        | none => { record with opayoMatch := "NO_MATCH" }

/-- `crossReferenceOpayo` from comparator.ts. -/
def crossReferenceOpayo (anomalies : List DisputeRecord) (opayoData : List OpayoRow) :
    List DisputeRecord :=
  anomalies.map (opayoStep opayoData)

/-! ## Cross-reference resolver Stage B (`crossReferencePenair`, lines 75-111) -/

/-- The per-record body of the `anomalies.map` in `crossReferencePenair`.
The source guard `record.opayoMatch !== "MATCH" || !record.opayoReference`
tests JS falsiness of the reference, i.e. equality to `""`. -/
def penairStep (penairData : List PenairRow) (record : DisputeRecord) : DisputeRecord :=
  if record.opayoMatch ≠ "MATCH" ∨ record.opayoReference = "" then
    { record with penairMatch := "N/A" }
  else
    let opRef := cleanId record.opayoReference
    match penairData.find? (fun p => cleanId p.inetRef == opRef) with
    | some matchRecord =>
        { record with
            penairMatch := "MATCH",
            folderNumber := matchRecord.folderNumber,
            travelDate := matchRecord.travelDate,
            origin := matchRecord.origin,
            destination := matchRecord.destination,
            airlineCode := matchRecord.airlineCode,
            invoiceDate := matchRecord.invoiceDate,
            returnDate := matchRecord.returnDate,
            emailId := matchRecord.emailId }
    | none => { record with penairMatch := "NO_MATCH" }

/-- `crossReferencePenair` from comparator.ts. -/
def crossReferencePenair (anomalies : List DisputeRecord) (penairData : List PenairRow) :
    List DisputeRecord :=
  anomalies.map (penairStep penairData)

/-! ## Header mapper (`findKey`, excel.ts lines 40-64) -/

/-- The normalization the source applies to headers and aliases for tiers 2
and 3: `k.trim().toLowerCase().replace(/[^a-z0-9]/g, "")`. -/
def normHdr (s : String) : String := keepAlnum (lowerStr (jsTrim s))

/-- First loop of `findKey`: for each alias in order, try the exact
case-insensitive tier, then the normalized tier, before moving to the next
alias.  The source computes `normalizedKeys` once and uses
`indexOf`/`keys[index]`; finding the first key whose normalized form equals
the target is the same first-index selection. -/
def findKeyLoop12 (keys : List String) : List String → Option String
  | [] => none
  | target :: rest =>
      match keys.find? (fun k => lowerStr (jsTrim k) == lowerStr (jsTrim target)) with
      | some k => some k
      | none =>
          match keys.find? (fun k => normHdr k == normHdr target) with
          | some k => some k
          | none => findKeyLoop12 keys rest

/-- Second loop of `findKey`: the substring fallback tier, again scanning the
aliases in order. -/
def findKeyLoop3 (keys : List String) : List String → Option String
  | [] => none
  | target :: rest =>
      match keys.find? (fun k => containsSub (normHdr k).toList (normHdr target).toList) with
      | some k => some k
      | none => findKeyLoop3 keys rest

/-- `findKey` from excel.ts, over the ordered key list of the sample row. -/
def findKey (keys possibleKeys : List String) : Option String :=
  match findKeyLoop12 keys possibleKeys with
  | some k => some k
  | none => findKeyLoop3 keys possibleKeys

/-- What one alias yields from tiers 1-2 (exact first, then normalized). -/
def aliasT12 (keys : List String) (target : String) : Option String :=
  match keys.find? (fun k => lowerStr (jsTrim k) == lowerStr (jsTrim target)) with
  | some k => some k
  | none => keys.find? (fun k => normHdr k == normHdr target)

/-- What one alias yields from tier 3 (normalized substring containment). -/
def aliasT3 (keys : List String) (target : String) : Option String :=
  keys.find? (fun k => containsSub (normHdr k).toList (normHdr target).toList)

/-- What one alias yields from tier 1 alone. -/
def aliasT1 (keys : List String) (target : String) : Option String :=
  keys.find? (fun k => lowerStr (jsTrim k) == lowerStr (jsTrim target))

/-- What one alias yields from tier 2 alone. -/
def aliasT2 (keys : List String) (target : String) : Option String :=
  keys.find? (fun k => normHdr k == normHdr target)

/-- First `some` produced by `f` along a list. -/
def firstSome (f : α → Option β) : List α → Option β
  | [] => none
  | a :: l =>
      match f a with
      | some b => some b
      | none => firstSome f l

/-- Tier-major resolution as the specification words it: tier 1 across the
entire alias list, then tier 2 across the entire list, then tier 3.  Written
from the specification, for comparison with the source `findKey`. -/
def findKeySpecTierMajor (keys possibleKeys : List String) : Option String :=
  match firstSome (aliasT1 keys) possibleKeys with
  | some k => some k
  | none =>
      match firstSome (aliasT2 keys) possibleKeys with
      | some k => some k
      | none => firstSome (aliasT3 keys) possibleKeys

/-! ## Date resolver (`formatExcelDate`, excel.ts lines 68-84) -/

/-- Result of the date formatter.  `localeDate ms` stands for
`new Date(ms).toLocaleDateString()` — the locale rendering is performed by
the JS environment and is modelled by its epoch-millisecond input; `fixed s`
is a string returned as-is. -/
inductive DateOut where
  | fixed (s : String)
  | localeDate (ms : ℤ)
deriving DecidableEq

/-- The regex test `/^\d{5}(\.\d+)?$/.test(str)`: exactly five digits, then
optionally a dot followed by one or more digits. -/
def isSerialShape (l : List Char) : Bool :=
  let ds := l.takeWhile (fun c => c.isDigit)
  ds.length == 5 &&
    (match l.drop ds.length with
     | [] => true
     | '.' :: fs => !fs.isEmpty && fs.all (fun c => c.isDigit)
     | _ => false)

/-- `formatExcelDate` from excel.ts.  The guard `!val || val === "N/A"`
is falsiness of the stringified cell, i.e. `val = ""`, or the sentinel.
`Math.round` on the (positive) product is floor of the value plus one half. -/
def formatExcelDate (val : String) : DateOut :=
  if val = "" ∨ val = "N/A" then .fixed "N/A"
  else
    let str := jsTrim val
    if isSerialShape str.toList then
      match jsParseFloat str with
      | some num =>
          if 29000 < num ∧ num < 60000 then
            .localeDate ⌊(num - 25569) * 86400 * 1000 + 1/2⌋
          else .fixed str
      | none => .fixed str
    else .fixed str

/-! ## Capture-schema normalizer (`parseOpayoData`, excel.ts lines 128-168) -/

/-- One decoded spreadsheet row: ordered header/cell pairs. -/
def RawRow := List (String × String)

/-- The ordered key list `Object.keys(row)`. -/
def rowKeys (row : RawRow) : List String := row.map Prod.fst

/-- `row[k]`, with the absent cell modelled as `""` (see the file comment). -/
def getCell (row : RawRow) (k : String) : String :=
  match row.find? (fun kv => kv.1 == k) with
  | some kv => kv.2
  | none => ""

/-- JS falsiness of `map.amount` / `map.last4`: `undefined` or `""`. -/
def optFalsy : Option String → Bool
  | none => true
  | some s => s == ""

def opayoAmountAliases : List String :=
  ["Amount(Inc. Surcharge)", "Amount (Inc. Surcharge)", "Amount"]

def opayoLast4Aliases : List String := ["last 4 digits", "last 4", "card last 4"]

def opayoRefAliases : List String := ["Reference", "Ref", "Transaction ID", "Txn Ref"]

def opayoBookAddrAliases : List String := ["Booking Address", "Billing Address"]

def opayoTransAddrAliases : List String := ["Transaction Address", "Delivery Address"]

/-- `parseOpayoData` from excel.ts: resolve the capture columns from the
first row, bail out to `[]` when a required column is falsy, normalize every
row, and retain only rows with a nonzero amount and a 4-character last4.
`parseFloat` giving `NaN` becomes amount `0` (`isNaN(amt) ? 0 : amt`). -/
def parseOpayoData (rows : List RawRow) : List OpayoRow :=
  match rows with
  | [] => []
  | sample :: rest =>
      let keys := rowKeys sample
      let mAmount := findKey keys opayoAmountAliases
      let mLast4 := findKey keys opayoLast4Aliases
      let mRef := findKey keys opayoRefAliases
      let mBook := findKey keys opayoBookAddrAliases
      let mTrans := findKey keys opayoTransAddrAliases
      if optFalsy mAmount || optFalsy mLast4 then []
      else
        ((sample :: rest).map (fun row : RawRow =>
          ({ amount := (jsParseFloat (stripAmountChars (getCell row (mAmount.getD "")))).getD 0,
             last4 := sliceLast 4 (stripToDigits (getCell row (mLast4.getD ""))),
             reference :=
               match mRef with
               | some kr => jsTrim (getCell row kr)
               | none => "",
             bookingAddress :=
               match mBook with
               | some kb => getCell row kb
               | none => "",
             transAddress :=
               match mTrans with
               | some kt => getCell row kt
               | none => "" } : OpayoRow))).filter
          (fun r => r.amount != 0 && r.last4.length == 4)

/-! ## Specification-side predicates -/

/-- The delta-detector retention rule as the specification words it: the
trimmed case reference is neither empty nor the sentinel and does not occur
among the trimmed baseline references. -/
def anomalySpecKeep (baseData : List DisputeRecord) (r : DisputeRecord) : Bool :=
  let ref := jsTrim r.caseReference
  !(ref == "") && !(ref == "N/A") &&
    !((baseData.map (fun b => jsTrim b.caseReference)).contains ref)

/-- Stage A qualification of one capture record against an anomaly whose
cleaned amount is `a` and whose trimmed last4 is `l4`. -/
def opayoQualifies (a : ℚ) (l4 : String) (op : OpayoRow) : Prop :=
  op.last4 = l4 ∧ |op.amount - a| < 1/20

/-- Agreement on every `DisputeRecord` field other than the four Stage A
enrichment fields (`opayoMatch`, `opayoReference`, `bookingAddress`,
`transAddress`). -/
def agreesOutsideOpayoFields (r s : DisputeRecord) : Prop :=
  s.cycle = r.cycle ∧ s.merchant = r.merchant ∧ s.dueDate = r.dueDate ∧
  s.caseReference = r.caseReference ∧ s.reasonCode = r.reasonCode ∧
  s.reasonCategory = r.reasonCategory ∧ s.transactionDate = r.transactionDate ∧
  s.transactionAmount = r.transactionAmount ∧ s.datePost = r.datePost ∧
  s.disputeAmount = r.disputeAmount ∧ s.cardLast4 = r.cardLast4 ∧
  s.penairMatch = r.penairMatch ∧ s.folderNumber = r.folderNumber ∧
  s.travelDate = r.travelDate ∧ s.origin = r.origin ∧ s.destination = r.destination ∧
  s.airlineCode = r.airlineCode ∧ s.invoiceDate = r.invoiceDate ∧
  s.returnDate = r.returnDate ∧ s.emailId = r.emailId

/-- Agreement on every `DisputeRecord` field other than the nine Stage B
enrichment fields (`penairMatch`, `folderNumber`, `travelDate`, `origin`,
`destination`, `airlineCode`, `invoiceDate`, `returnDate`, `emailId`). -/
def agreesOutsidePenairFields (r s : DisputeRecord) : Prop :=
  s.cycle = r.cycle ∧ s.merchant = r.merchant ∧ s.dueDate = r.dueDate ∧
  s.caseReference = r.caseReference ∧ s.reasonCode = r.reasonCode ∧
  s.reasonCategory = r.reasonCategory ∧ s.transactionDate = r.transactionDate ∧
  s.transactionAmount = r.transactionAmount ∧ s.datePost = r.datePost ∧
  s.disputeAmount = r.disputeAmount ∧ s.cardLast4 = r.cardLast4 ∧
  s.opayoMatch = r.opayoMatch ∧ s.opayoReference = r.opayoReference ∧
  s.bookingAddress = r.bookingAddress ∧ s.transAddress = r.transAddress

/-! ## Concrete test data

Records used by witnesses and counterexamples below; all other fields take
the structure defaults. -/

def recC2 : DisputeRecord :=
  { caseReference := "W2", transactionAmount := "10.00", cardLast4 := "1234" }

def opC2a : OpayoRow :=
  { amount := 10, last4 := "1234", reference := "OP-A",
    bookingAddress := "BA", transAddress := "TA" }

def opC2b : OpayoRow :=
  { amount := 10 + 1/100, last4 := "1234", reference := "OP-B",
    bookingAddress := "BB", transAddress := "TB" }

def recC5 : DisputeRecord :=
  { caseReference := "W5", opayoMatch := "MATCH", opayoReference := "55012.0" }

def penC5 : PenairRow :=
  { inetRef := "55012", folderNumber := "F-7", travelDate := "2024-01-02",
    origin := "LHR", destination := "JFK", airlineCode := "BA",
    invoiceDate := "2023-12-01", returnDate := "2024-01-09", emailId := "a@b.c" }

def recC6 : DisputeRecord :=
  { caseReference := "W6", transactionAmount := "10", cardLast4 := "1234" }

def recC7 : DisputeRecord :=
  { caseReference := "W7", transactionAmount := "", cardLast4 := "5678" }

def opC7 : OpayoRow :=
  { amount := 1/25, last4 := "5678", reference := "R-99",
    bookingAddress := "", transAddress := "" }

def recC10 : DisputeRecord :=
  { caseReference := "W10", transactionAmount := "3.50", cardLast4 := "9999",
    opayoMatch := "MATCH", opayoReference := "777" }

def penC10 : PenairRow :=
  { inetRef := "777", folderNumber := "F-10", travelDate := "", origin := "",
    destination := "", airlineCode := "", invoiceDate := "", returnDate := "",
    emailId := "" }

def rowC8 : RawRow := [("Stuff", "x"), ("Reference", "R1")]

/-! ## General lemmas -/

theorem toNat_ofNat_char (n : Nat) (h : n.isValidChar) : (Char.ofNat n).toNat = n := by
  simp [Char.ofNat, Char.ofNatAux, Char.toNat, h, UInt32.toNat, UInt32.ofNatCore]

theorem lowerChar_lowerChar (c : Char) : lowerChar (lowerChar c) = lowerChar c := by
  unfold lowerChar
  split
  · next h =>
    have hv : (c.toNat + 32).isValidChar := Or.inl (by omega)
    rw [toNat_ofNat_char _ hv]
    have hn : ¬ (65 ≤ c.toNat + 32 ∧ c.toNat + 32 ≤ 90) := by omega
    rw [if_neg hn]
  · rfl

theorem map_lowerChar_idem (l : List Char) :
    (l.map lowerChar).map lowerChar = l.map lowerChar := by
  induction l with
  | nil => rfl
  | cons c t ih => simp [List.map, ih, lowerChar_lowerChar]

theorem lowerStr_lowerStr (s : String) : lowerStr (lowerStr s) = lowerStr s :=
  congrArg String.mk (map_lowerChar_idem s.toList)

theorem find_append_first {α} (p : α → Bool) (pre post : List α) (m : α)
    (hpre : ∀ x ∈ pre, p x = false) (hm : p m = true) :
    (pre ++ m :: post).find? p = some m := by
  induction pre with
  | nil => simp [List.find?_cons, hm]
  | cons a t ih =>
      have ha : p a = false := hpre a (by simp)
      simp only [List.cons_append, List.find?_cons, ha]
      exact ih (fun x hx => hpre x (by simp [hx]))

theorem find_none_of_all {α} (p : α → Bool) (l : List α)
    (h : ∀ x ∈ l, p x = false) : l.find? p = none := by
  induction l with
  | nil => rfl
  | cons a t ih =>
      have ha : p a = false := h a (by simp)
      simp only [List.find?_cons, ha]
      exact ih (fun x hx => h x (by simp [hx]))

theorem firstSome_append_first {α β} (f : α → Option β) (pre post : List α) (m : α) (b : β)
    (hpre : ∀ x ∈ pre, f x = none) (hm : f m = some b) :
    firstSome f (pre ++ m :: post) = some b := by
  induction pre with
  | nil => simp [firstSome, hm]
  | cons a t ih =>
      have ha : f a = none := hpre a (by simp)
      simp only [List.cons_append, firstSome, ha]
      exact ih (fun x hx => hpre x (by simp [hx]))

theorem firstSome_none_of_all {α β} (f : α → Option β) (l : List α)
    (h : ∀ x ∈ l, f x = none) : firstSome f l = none := by
  induction l with
  | nil => rfl
  | cons a t ih =>
      have ha : f a = none := h a (by simp)
      simp only [firstSome, ha]
      exact ih (fun x hx => h x (by simp [hx]))

/-! ## Claim theorems -/

/-- C1: for every baseline list and updated list of ledger records,
`findAnomalies` returns exactly the records of the updated list whose trimmed
case reference is neither empty nor the literal `"N/A"` and is not among the
trimmed case references of the baseline, in the relative order of the updated
list — that is, the push-loop of the source equals a filter by the
specification predicate. -/
theorem findAnomalies_is_spec_filter (baseData newData : List DisputeRecord) :
    findAnomalies baseData newData = newData.filter (anomalySpecKeep baseData) := by
  unfold findAnomalies
  induction newData with
  | nil => rfl
  | cons r rest ih =>
      unfold findAnomaliesLoop
      rw [List.filter_cons, ih]
      unfold anomalySpecKeep
      by_cases h1 : jsTrim r.caseReference = ""
      · simp [h1]
      · by_cases h2 : jsTrim r.caseReference = "N/A"
        · simp [h1, h2]
        · by_cases h3 : ∃ a ∈ baseData, jsTrim a.caseReference = jsTrim r.caseReference
          · simp [h1, h2, h3]
          · simp [h1, h2, h3]

/-- C4 counterexample: `cleanId` is not idempotent.  On `"1.0.0"` the first
application strips the final `".0"` leaving `"1.0"`, and the second strips
again, giving `"1"`. -/
theorem cleanId_not_idempotent_on_1_0_0 :
    cleanId (cleanId "1.0.0") ≠ cleanId "1.0.0" := by decide

/-- C4 (amended): `cleanId` is idempotent on every input whose once-cleaned
value is already trimmed and carries no trailing `".0...0"` suffix — that is,
whenever the cleaned value is a fixed point of the trim step and of the
suffix-strip step, a second cleaning changes nothing.  (Unconditional
idempotence fails: stripping the suffix can expose a new trailing suffix or
trailing whitespace, as in the counterexample.) -/
theorem cleanId_idempotent_of_fixed (x : String)
    (h1 : jsTrim (cleanId x) = cleanId x)
    (h2 : stripDot0 (cleanId x) = cleanId x) :
    cleanId (cleanId x) = cleanId x := by
  show lowerStr (stripDot0 (jsTrim (cleanId x))) = cleanId x
  rw [h1, h2]
  conv_lhs => rw [show cleanId x = lowerStr (stripDot0 (jsTrim x)) from rfl]
  rw [lowerStr_lowerStr]
  rfl

/-- C4 witness: the amended idempotence applied at `"ABC.10"`. -/
theorem cleanId_idempotent_witness :
    cleanId (cleanId "ABC.10") = cleanId "ABC.10" :=
  cleanId_idempotent_of_fixed "ABC.10" (by decide) (by decide)

/-! ## Stage A / Stage B branch lemmas -/

theorem opayoStep_na (opayoData : List OpayoRow) (record : DisputeRecord)
    (h : jsNumber (stripAmountChars record.transactionAmount) = none ∨
      ((jsTrim record.cardLast4).length < 4 ∨ jsTrim record.cardLast4 = "N/A")) :
    opayoStep opayoData record = { record with opayoMatch := "N/A" } := by
  unfold opayoStep
  rcases h with h | h
  · rw [h]
  · cases hJ : jsNumber (stripAmountChars record.transactionAmount) with
    | none => rfl
    | some a => simp only [if_pos h]

theorem opayoStep_match (opayoData : List OpayoRow) (record : DisputeRecord) (a : ℚ)
    (m : OpayoRow)
    (hamt : jsNumber (stripAmountChars record.transactionAmount) = some a)
    (hcond : ¬ ((jsTrim record.cardLast4).length < 4 ∨ jsTrim record.cardLast4 = "N/A"))
    (hfind : opayoData.find? (fun op =>
        op.last4 == jsTrim record.cardLast4 && decide (|op.amount - a| < 1/20)) = some m) :
    opayoStep opayoData record =
      { record with
          opayoMatch := "MATCH", opayoReference := m.reference,
          bookingAddress := m.bookingAddress, transAddress := m.transAddress } := by
  unfold opayoStep
  rw [hamt]
  simp only [if_neg hcond, hfind]

theorem opayoStep_nomatch (opayoData : List OpayoRow) (record : DisputeRecord) (a : ℚ)
    (hamt : jsNumber (stripAmountChars record.transactionAmount) = some a)
    (hcond : ¬ ((jsTrim record.cardLast4).length < 4 ∨ jsTrim record.cardLast4 = "N/A"))
    (hfind : opayoData.find? (fun op =>
        op.last4 == jsTrim record.cardLast4 && decide (|op.amount - a| < 1/20)) = none) :
    opayoStep opayoData record = { record with opayoMatch := "NO_MATCH" } := by
  unfold opayoStep
  rw [hamt]
  simp only [if_neg hcond, hfind]

theorem penairStep_na (penairData : List PenairRow) (record : DisputeRecord)
    (h : record.opayoMatch ≠ "MATCH" ∨ record.opayoReference = "") :
    penairStep penairData record = { record with penairMatch := "N/A" } := by
  unfold penairStep
  rw [if_pos h]

theorem penairStep_match (penairData : List PenairRow) (record : DisputeRecord)
    (m : PenairRow)
    (hgate : ¬ (record.opayoMatch ≠ "MATCH" ∨ record.opayoReference = ""))
    (hfind : penairData.find? (fun p =>
        cleanId p.inetRef == cleanId record.opayoReference) = some m) :
    penairStep penairData record =
      { record with
          penairMatch := "MATCH", folderNumber := m.folderNumber,
          travelDate := m.travelDate, origin := m.origin,
          destination := m.destination, airlineCode := m.airlineCode,
          invoiceDate := m.invoiceDate, returnDate := m.returnDate,
          emailId := m.emailId } := by
  unfold penairStep
  rw [if_neg hgate]
  simp only [hfind]

theorem penairStep_nomatch (penairData : List PenairRow) (record : DisputeRecord)
    (hgate : ¬ (record.opayoMatch ≠ "MATCH" ∨ record.opayoReference = ""))
    (hfind : penairData.find? (fun p =>
        cleanId p.inetRef == cleanId record.opayoReference) = none) :
    penairStep penairData record = { record with penairMatch := "NO_MATCH" } := by
  unfold penairStep
  rw [if_neg hgate]
  simp only [hfind]

/-- C2: for an anomaly passing the Stage A precondition (parseable cleaned
amount `a`, trimmed last4 of length at least 4 and not the sentinel),
`crossReferenceOpayo` selects the first capture record in list order whose
last4 equals the trimmed last4 and whose amount differs from `a` by strictly
less than `0.05`, copying its reference verbatim and its two address fields
and setting `opayoMatch` to MATCH; if no capture record qualifies it sets
`opayoMatch` to NO_MATCH.  In particular, when several records qualify, only
list order decides (the prefix is required non-qualifying, nothing more). -/
theorem crossReferenceOpayo_first_match
    (record : DisputeRecord) (opayoData : List OpayoRow) (a : ℚ)
    (hamt : jsNumber (stripAmountChars record.transactionAmount) = some a)
    (hlen : ¬ (jsTrim record.cardLast4).length < 4)
    (hna : jsTrim record.cardLast4 ≠ "N/A") :
    (∀ pre m post, opayoData = pre ++ m :: post →
        (∀ op ∈ pre, ¬ opayoQualifies a (jsTrim record.cardLast4) op) →
        opayoQualifies a (jsTrim record.cardLast4) m →
        crossReferenceOpayo [record] opayoData =
          [{ record with
               opayoMatch := "MATCH", opayoReference := m.reference,
               bookingAddress := m.bookingAddress, transAddress := m.transAddress }]) ∧
    ((∀ op ∈ opayoData, ¬ opayoQualifies a (jsTrim record.cardLast4) op) →
        crossReferenceOpayo [record] opayoData =
          [{ record with opayoMatch := "NO_MATCH" }]) := by
  have hcond : ¬ ((jsTrim record.cardLast4).length < 4 ∨ jsTrim record.cardLast4 = "N/A") := by
    rintro (h | h)
    · exact hlen h
    · exact hna h
  constructor
  · intro pre m post hsplit hpre hm
    have hfind : opayoData.find? (fun op =>
        op.last4 == jsTrim record.cardLast4 && decide (|op.amount - a| < 1/20)) = some m := by
      rw [hsplit]
      apply find_append_first
      · intro x hx
        by_cases hb : x.last4 = jsTrim record.cardLast4
        · have hno : ¬ |x.amount - a| < 1/20 := fun hlt => hpre x hx ⟨hb, hlt⟩
          simp only [hb, beq_self_eq_true, Bool.true_and, decide_eq_false_iff_not]
          exact hno
        · simp [hb]
      · obtain ⟨h1, h2⟩ := hm
        simp only [h1, beq_self_eq_true, Bool.true_and, decide_eq_true_eq]
        exact h2
    show [opayoStep opayoData record] = _
    rw [opayoStep_match opayoData record a m hamt hcond hfind]
  · intro hall
    have hfind : opayoData.find? (fun op =>
        op.last4 == jsTrim record.cardLast4 && decide (|op.amount - a| < 1/20)) = none := by
      apply find_none_of_all
      intro x hx
      by_cases hb : x.last4 = jsTrim record.cardLast4
      · have hno : ¬ |x.amount - a| < 1/20 := fun hlt => hall x hx ⟨hb, hlt⟩
        simp only [hb, beq_self_eq_true, Bool.true_and, decide_eq_false_iff_not]
        exact hno
      · simp [hb]
    show [opayoStep opayoData record] = _
    rw [opayoStep_nomatch opayoData record a hamt hcond hfind]

/-- C2 witness: the order-decides scenario of the specification test list —
two qualifying capture records with amounts `10.00` and `10.01` against an
anomaly amount of `10.00`; the first in list order is selected even though
both qualify. -/
theorem crossReferenceOpayo_first_match_witness :
    crossReferenceOpayo [recC2] [opC2a, opC2b] =
      [{ recC2 with
           opayoMatch := "MATCH", opayoReference := "OP-A",
           bookingAddress := "BA", transAddress := "TA" }] := by
  have h0 : jsNumber (stripAmountChars recC2.transactionAmount) =
      some (((10:ℕ):ℚ) + ((0:ℕ):ℚ) / 10 ^ (2:ℕ)) := rfl
  have h1 : (((10:ℕ):ℚ) + ((0:ℕ):ℚ) / 10 ^ (2:ℕ)) = (10:ℚ) := by norm_num
  have hamt : jsNumber (stripAmountChars recC2.transactionAmount) = some (10:ℚ) := by
    rw [h0, h1]
  have happ := (crossReferenceOpayo_first_match recC2 [opC2a, opC2b] 10 hamt
    (by decide) (by decide)).1 [] opC2a [opC2b] rfl (by simp)
    ⟨rfl, by show |(10:ℚ) - 10| < 1/20; norm_num⟩
  exact happ

/-- C5: Stage B attempts booking linkage only when `opayoMatch` is MATCH and
the stored captured reference is nonempty, setting `penairMatch` to the
NOT_APPLICABLE sentinel "N/A" otherwise; when attempted it selects the first
booking record in list order whose `cleanId`-normalized reference equals the
normalized captured reference — so a captured "55012.0" matches a booking
"55012" — copying the booking fields on a hit and setting NO_MATCH when no
booking record matches. -/
theorem crossReferencePenair_spec (record : DisputeRecord) (penairData : List PenairRow) :
    (record.opayoMatch ≠ "MATCH" ∨ record.opayoReference = "" →
        crossReferencePenair [record] penairData =
          [{ record with penairMatch := "N/A" }]) ∧
    (record.opayoMatch = "MATCH" → record.opayoReference ≠ "" →
        (∀ pre m post, penairData = pre ++ m :: post →
            (∀ p ∈ pre, cleanId p.inetRef ≠ cleanId record.opayoReference) →
            cleanId m.inetRef = cleanId record.opayoReference →
            crossReferencePenair [record] penairData =
              [{ record with
                   penairMatch := "MATCH", folderNumber := m.folderNumber,
                   travelDate := m.travelDate, origin := m.origin,
                   destination := m.destination, airlineCode := m.airlineCode,
                   invoiceDate := m.invoiceDate, returnDate := m.returnDate,
                   emailId := m.emailId }]) ∧
        ((∀ p ∈ penairData, cleanId p.inetRef ≠ cleanId record.opayoReference) →
            crossReferencePenair [record] penairData =
              [{ record with penairMatch := "NO_MATCH" }])) ∧
    cleanId "55012.0" = cleanId "55012" := by
  refine ⟨?_, ?_, by decide⟩
  · intro h
    show [penairStep penairData record] = _
    rw [penairStep_na penairData record h]
  · intro hM hRef
    have hgate : ¬ (record.opayoMatch ≠ "MATCH" ∨ record.opayoReference = "") := by
      rintro (h | h)
      · exact h hM
      · exact hRef h
    constructor
    · intro pre m post hsplit hpre hm
      have hfind : penairData.find?
          (fun p => cleanId p.inetRef == cleanId record.opayoReference) = some m := by
        rw [hsplit]
        apply find_append_first
        · intro x hx
          simp [hpre x hx]
        · simp [hm]
      show [penairStep penairData record] = _
      rw [penairStep_match penairData record m hgate hfind]
    · intro hall
      have hfind : penairData.find?
          (fun p => cleanId p.inetRef == cleanId record.opayoReference) = none := by
        apply find_none_of_all
        intro x hx
        simp [hall x hx]
      show [penairStep penairData record] = _
      rw [penairStep_nomatch penairData record hgate hfind]

/-- C5 witness: a MATCH record with captured reference "55012.0" is linked to
the booking record with reference "55012". -/
theorem crossReferencePenair_spec_witness :
    crossReferencePenair [recC5] [penC5] =
      [{ recC5 with
           penairMatch := "MATCH", folderNumber := "F-7", travelDate := "2024-01-02",
           origin := "LHR", destination := "JFK", airlineCode := "BA",
           invoiceDate := "2023-12-01", returnDate := "2024-01-09",
           emailId := "a@b.c" }] :=
  (((crossReferencePenair_spec recC5 [penC5]).2.1 rfl (by decide)).1)
    [] penC5 [] rfl (by simp) (by decide)

/-- C6 counterexample: with an empty capture list, an anomaly that passes the
Stage A precondition (amount "10", four-character last4 "1234") receives
NO_MATCH from `crossReferenceOpayo`, not the NOT_APPLICABLE the claim
demands for every anomaly. -/
theorem crossReferenceOpayo_empty_gives_nomatch :
    crossReferenceOpayo [recC6] [] = [{ recC6 with opayoMatch := "NO_MATCH" }] ∧
    ({ recC6 with opayoMatch := "NO_MATCH" } : DisputeRecord).opayoMatch ≠ "N/A" := by
  constructor
  · show [opayoStep [] recC6] = _
    rw [opayoStep_nomatch [] recC6 ((10:ℕ):ℚ) rfl (by decide) rfl]
  · decide

/-- C6 (amended): when the capture list is empty, Stage A never produces
MATCH: each anomaly gets NOT_APPLICABLE when its own data fails the
precondition and NO_MATCH otherwise; Stage B then yields NOT_APPLICABLE for
every such record regardless of the booking data supplied. -/
theorem crossReference_empty_capture (record : DisputeRecord)
    (penairData : List PenairRow) :
    crossReferenceOpayo [record] [] = [opayoStep [] record] ∧
    ((opayoStep [] record).opayoMatch = "N/A" ∨
      (opayoStep [] record).opayoMatch = "NO_MATCH") ∧
    crossReferencePenair [opayoStep [] record] penairData =
      [{ opayoStep [] record with penairMatch := "N/A" }] := by
  have hm2 : (opayoStep [] record).opayoMatch = "N/A" ∨
      (opayoStep [] record).opayoMatch = "NO_MATCH" := by
    by_cases hA : jsNumber (stripAmountChars record.transactionAmount) = none
    · left
      rw [opayoStep_na [] record (Or.inl hA)]
    · obtain ⟨a, ha⟩ := Option.ne_none_iff_exists'.mp hA
      by_cases hc : (jsTrim record.cardLast4).length < 4 ∨ jsTrim record.cardLast4 = "N/A"
      · left
        rw [opayoStep_na [] record (Or.inr hc)]
      · right
        rw [opayoStep_nomatch [] record a ha hc rfl]
  have hne : (opayoStep [] record).opayoMatch ≠ "MATCH" := by
    rcases hm2 with h | h <;> rw [h] <;> decide
  refine ⟨rfl, hm2, ?_⟩
  show [penairStep penairData (opayoStep [] record)] = _
  rw [penairStep_na penairData (opayoStep [] record) (Or.inl hne)]

/-- C7 counterexample: an anomaly whose transaction-amount string is empty is
not treated as unparseable: JS `Number("")` is `0`, the Stage A precondition
passes, a matching attempt is made with amount `0`, and here it even yields
MATCH against a capture amount of `0.04` (within the `0.05` tolerance) — the
claim demands NOT_APPLICABLE with no matching attempt. -/
theorem opayo_empty_amount_matches :
    crossReferenceOpayo [recC7] [opC7] =
      [{ recC7 with
           opayoMatch := "MATCH", opayoReference := "R-99",
           bookingAddress := "", transAddress := "" }] ∧
    ({ recC7 with
        opayoMatch := "MATCH", opayoReference := "R-99",
        bookingAddress := "", transAddress := "" } : DisputeRecord).opayoMatch ≠ "N/A" := by
  constructor
  · show [opayoStep [opC7] recC7] = _
    have hamt : jsNumber (stripAmountChars recC7.transactionAmount) = some 0 := rfl
    have habs : |opC7.amount - (0:ℚ)| < 1/20 := by
      show |(1:ℚ)/25 - 0| < 1/20
      rw [sub_zero, abs_of_pos (by norm_num)]
      norm_num
    have hp : (opC7.last4 == jsTrim recC7.cardLast4 &&
        decide (|opC7.amount - (0:ℚ)| < 1/20)) = true := by
      rw [Bool.and_eq_true]
      exact ⟨by decide, decide_eq_true habs⟩
    have hfind : [opC7].find? (fun op => op.last4 == jsTrim recC7.cardLast4 &&
        decide (|op.amount - (0:ℚ)| < 1/20)) = some opC7 :=
      List.find?_cons_of_pos _ hp
    rw [opayoStep_match [opC7] recC7 0 opC7 hamt (by decide) hfind]
    rfl
  · decide

/-- C7 (amended): Stage A sets `opayoMatch` to the NOT_APPLICABLE sentinel
"N/A" (making no matching attempt and changing nothing else) exactly when the
JS numeric coercion of the stripped amount is NaN — which requires a
malformed nonempty remainder such as a stray minus or a second dot — or the
trimmed last4 is shorter than 4 characters or equals "N/A".  An empty or
digit-free amount string is not such a case: it coerces to 0 and matching is
attempted with amount 0 (see the counterexample). -/
theorem opayo_na_characterization (record : DisputeRecord) (opayoData : List OpayoRow) :
    ((opayoStep opayoData record).opayoMatch = "N/A" ↔
      jsNumber (stripAmountChars record.transactionAmount) = none ∨
        (jsTrim record.cardLast4).length < 4 ∨ jsTrim record.cardLast4 = "N/A") ∧
    (jsNumber (stripAmountChars record.transactionAmount) = none ∨
        (jsTrim record.cardLast4).length < 4 ∨ jsTrim record.cardLast4 = "N/A" →
      opayoStep opayoData record = { record with opayoMatch := "N/A" }) ∧
    jsNumber "" = some 0 := by
  refine ⟨⟨?_, ?_⟩, fun h => opayoStep_na opayoData record h, rfl⟩
  · intro hEq
    by_contra hn
    push_neg at hn
    obtain ⟨h1, h2, h3⟩ := hn
    obtain ⟨a, ha⟩ := Option.ne_none_iff_exists'.mp h1
    have hcond : ¬ ((jsTrim record.cardLast4).length < 4 ∨ jsTrim record.cardLast4 = "N/A") := by
      rintro (h | h)
      · exact absurd h (not_lt.mpr h2)
      · exact h3 h
    cases hf : opayoData.find? (fun op => op.last4 == jsTrim record.cardLast4 &&
        decide (|op.amount - a| < 1/20)) with
    | some m =>
        rw [opayoStep_match opayoData record a m ha hcond hf] at hEq
        simp at hEq
    | none =>
        rw [opayoStep_nomatch opayoData record a ha hcond hf] at hEq
        simp at hEq
  · intro h
    rw [opayoStep_na opayoData record h]

/-- C7 witness: the NOT_APPLICABLE characterization applied to an anomaly
whose trimmed last4 has only two characters. -/
theorem opayo_na_characterization_witness :
    opayoStep [] { caseReference := "W7B", transactionAmount := "5", cardLast4 := "12" } =
      { ({ caseReference := "W7B", transactionAmount := "5",
           cardLast4 := "12" } : DisputeRecord) with opayoMatch := "N/A" } :=
  (opayo_na_characterization
      { caseReference := "W7B", transactionAmount := "5", cardLast4 := "12" } []).2.1
    (Or.inr (Or.inl (by decide)))

/-! ## Frame lemmas for the two stages -/

theorem opayoStep_frame (opayoData : List OpayoRow) (r : DisputeRecord) :
    agreesOutsideOpayoFields r (opayoStep opayoData r) := by
  by_cases hA : jsNumber (stripAmountChars r.transactionAmount) = none
  · rw [opayoStep_na opayoData r (Or.inl hA)]
    simp [agreesOutsideOpayoFields]
  · obtain ⟨a, ha⟩ := Option.ne_none_iff_exists'.mp hA
    by_cases hc : (jsTrim r.cardLast4).length < 4 ∨ jsTrim r.cardLast4 = "N/A"
    · rw [opayoStep_na opayoData r (Or.inr hc)]
      simp [agreesOutsideOpayoFields]
    · cases hf : opayoData.find? (fun op =>
          op.last4 == jsTrim r.cardLast4 && decide (|op.amount - a| < 1/20)) with
      | some m =>
          rw [opayoStep_match opayoData r a m ha hc hf]
          simp [agreesOutsideOpayoFields]
      | none =>
          rw [opayoStep_nomatch opayoData r a ha hc hf]
          simp [agreesOutsideOpayoFields]

theorem penairStep_frame (penairData : List PenairRow) (r : DisputeRecord) :
    agreesOutsidePenairFields r (penairStep penairData r) := by
  by_cases hg : r.opayoMatch ≠ "MATCH" ∨ r.opayoReference = ""
  · rw [penairStep_na penairData r hg]
    simp [agreesOutsidePenairFields]
  · cases hf : penairData.find? (fun p => cleanId p.inetRef == cleanId r.opayoReference) with
    | some m =>
        rw [penairStep_match penairData r m hg hf]
        simp [agreesOutsidePenairFields]
    | none =>
        rw [penairStep_nomatch penairData r hg hf]
        simp [agreesOutsidePenairFields]

/-- C10: each cross-reference stage returns a list with exactly one output
record per input record in the same order (position `i` of the output comes
from position `i` of the input), and each output record agrees with its
input record on every field other than the enrichment fields of that stage —
`opayoMatch`, `opayoReference`, `bookingAddress`, `transAddress` for Stage A
and `penairMatch` plus the eight booking fields for Stage B.  The input
records are never mutated: the embedding of both stages is a pure `map`
producing updated copies. -/
theorem crossReference_frame (anomalies : List DisputeRecord)
    (opayoData : List OpayoRow) (penairData : List PenairRow) :
    (crossReferenceOpayo anomalies opayoData).length = anomalies.length ∧
    (crossReferencePenair anomalies penairData).length = anomalies.length ∧
    (∀ (i : ℕ) a b, anomalies[i]? = some a →
        (crossReferenceOpayo anomalies opayoData)[i]? = some b →
        agreesOutsideOpayoFields a b) ∧
    (∀ (i : ℕ) a b, anomalies[i]? = some a →
        (crossReferencePenair anomalies penairData)[i]? = some b →
        agreesOutsidePenairFields a b) := by
  refine ⟨List.length_map _ _, List.length_map _ _, ?_, ?_⟩
  · intro i a b ha hb
    rw [crossReferenceOpayo, List.getElem?_map, ha, Option.map_some'] at hb
    have hba : opayoStep opayoData a = b := by injection hb
    rw [← hba]
    exact opayoStep_frame opayoData a
  · intro i a b ha hb
    rw [crossReferencePenair, List.getElem?_map, ha, Option.map_some'] at hb
    have hba : penairStep penairData a = b := by injection hb
    rw [← hba]
    exact penairStep_frame penairData a

/-- C10 witness: the positional frame property applied at index 0 of a
one-record anomaly list, for both stages. -/
theorem crossReference_frame_witness :
    agreesOutsideOpayoFields recC10 (opayoStep [] recC10) ∧
    agreesOutsidePenairFields recC10 (penairStep [penC10] recC10) :=
  ⟨(crossReference_frame [recC10] [] [penC10]).2.2.1 0 recC10 (opayoStep [] recC10) rfl rfl,
   (crossReference_frame [recC10] [] [penC10]).2.2.2 0 recC10 (penairStep [penC10] recC10)
     rfl rfl⟩

/-! ## Header-mapper lemmas -/

theorem findKeyLoop12_eq_firstSome (keys ts : List String) :
    findKeyLoop12 keys ts = firstSome (aliasT12 keys) ts := by
  induction ts with
  | nil => rfl
  | cons t rest ih =>
      simp only [findKeyLoop12, firstSome, aliasT12]
      cases keys.find? (fun k => lowerStr (jsTrim k) == lowerStr (jsTrim t)) with
      | some k => rfl
      | none =>
          cases keys.find? (fun k => normHdr k == normHdr t) with
          | some k => rfl
          | none => exact ih

theorem findKeyLoop3_eq_firstSome (keys ts : List String) :
    findKeyLoop3 keys ts = firstSome (aliasT3 keys) ts := by
  induction ts with
  | nil => rfl
  | cons t rest ih =>
      simp only [findKeyLoop3, firstSome, aliasT3]
      cases keys.find? (fun k => containsSub (normHdr k).toList (normHdr t).toList) with
      | some k => rfl
      | none => exact ih

/-- C3 counterexample: with keys `["ab", "c"]` and alias list `["a-b", "c"]`,
the later alias `"c"` matches key `"c"` at tier 1 (exact case-insensitive),
yet `findKey` returns `"ab"`, the tier-2 normalized hit of the earlier alias
`"a-b"` — so tiers 1 and 2 are not evaluated tier-major across the whole
alias list.  `findKeySpecTierMajor`, written from the specification words,
returns `"c"` on the same input. -/
theorem findKey_not_tier_major :
    findKey ["ab", "c"] ["a-b", "c"] = some "ab" ∧
    aliasT1 ["ab", "c"] "c" = some "c" ∧
    findKeySpecTierMajor ["ab", "c"] ["a-b", "c"] = some "c" ∧
    some "ab" ≠ some "c" := by decide

/-- C3 (amended): `findKey` evaluates tiers 1 and 2 alias-major — for each
alias in list order it tries the exact tier then the normalized tier, and
the first alias yielding either hit wins — and only the substring tier 3
runs as a separate later pass across the entire alias list.  Hence a later
alias matching at tier 1 or 2 beats an earlier alias matching only at
tier 3, but an earlier alias matching only at tier 2 beats a later alias
matching at tier 1. -/
theorem findKey_alias_major (keys possibleKeys : List String) :
    (∀ pre t post k, possibleKeys = pre ++ t :: post →
        (∀ x ∈ pre, aliasT12 keys x = none) → aliasT12 keys t = some k →
        findKey keys possibleKeys = some k) ∧
    ((∀ x ∈ possibleKeys, aliasT12 keys x = none) →
        (∀ pre t post k, possibleKeys = pre ++ t :: post →
            (∀ x ∈ pre, aliasT3 keys x = none) → aliasT3 keys t = some k →
            findKey keys possibleKeys = some k) ∧
        ((∀ x ∈ possibleKeys, aliasT3 keys x = none) →
            findKey keys possibleKeys = none)) := by
  constructor
  · intro pre t post k hsplit hpre ht
    have h12 : findKeyLoop12 keys possibleKeys = some k := by
      rw [findKeyLoop12_eq_firstSome, hsplit]
      exact firstSome_append_first _ pre post t k hpre ht
    unfold findKey
    rw [h12]
  · intro hall
    have h12 : findKeyLoop12 keys possibleKeys = none := by
      rw [findKeyLoop12_eq_firstSome]
      exact firstSome_none_of_all _ _ hall
    constructor
    · intro pre t post k hsplit hpre ht
      have h3 : findKeyLoop3 keys possibleKeys = some k := by
        rw [findKeyLoop3_eq_firstSome, hsplit]
        exact firstSome_append_first _ pre post t k hpre ht
      unfold findKey
      rw [h12, h3]
    · intro hall3
      have h3 : findKeyLoop3 keys possibleKeys = none := by
        rw [findKeyLoop3_eq_firstSome]
        exact firstSome_none_of_all _ _ hall3
      unfold findKey
      rw [h12, h3]

/-- C3 witness: the alias-major resolution applied to a tier-3 case — no
alias reaches tiers 1-2, and the substring pass finds `"Total Amount"`
(normalized `"totalamount"`) containing the normalized alias `"amount"`. -/
theorem findKey_alias_major_witness :
    findKey ["Total Amount"] ["amount"] = some "Total Amount" :=
  (((findKey_alias_major ["Total Amount"] ["amount"]).2 (by decide)).1)
    [] "amount" [] "Total Amount" rfl (by simp) (by decide)

/-- C8: every record in the sequence returned by `parseOpayoData` has a
nonzero amount and a last4 of exactly 4 characters — rows failing this are
dropped by the retention filter at normalization time — and when a required
capture column (amount or last4) cannot be resolved from the sample row
(`findKey` yields nothing, or a falsy empty key), the function returns the
empty sequence instead of raising. -/
theorem parseOpayoData_invariant (rows : List RawRow) :
    (∀ r ∈ parseOpayoData rows, r.amount ≠ 0 ∧ r.last4.length = 4) ∧
    (∀ sample rest, rows = sample :: rest →
        (optFalsy (findKey (rowKeys sample) opayoAmountAliases) = true ∨
          optFalsy (findKey (rowKeys sample) opayoLast4Aliases) = true) →
        parseOpayoData rows = []) := by
  constructor
  · intro r hr
    cases rows with
    | nil => simp [parseOpayoData] at hr
    | cons sample rest =>
        simp only [parseOpayoData] at hr
        split at hr
        · simp at hr
        · have hmem := List.mem_filter.mp hr
          have hkeep := hmem.2
          rw [Bool.and_eq_true] at hkeep
          constructor
          · exact bne_iff_ne.mp hkeep.1
          · exact beq_iff_eq.mp hkeep.2
  · intro sample rest hrows hor
    subst hrows
    have hcond : (optFalsy (findKey (rowKeys sample) opayoAmountAliases) ||
        optFalsy (findKey (rowKeys sample) opayoLast4Aliases)) = true := by
      rcases hor with h | h <;> simp [h]
    simp only [parseOpayoData, hcond, if_true]

/-- C8 witness: a sample row with no resolvable amount or last4 column makes
`parseOpayoData` return the empty sequence. -/
theorem parseOpayoData_invariant_witness :
    parseOpayoData [rowC8] = [] :=
  (parseOpayoData_invariant [rowC8]).2 rowC8 [] rfl (Or.inl (by decide))

/-! ## Date-resolver lemmas -/

theorem takeWhile_all_append (p : Char → Bool) (ds rest : List Char)
    (h : ∀ c ∈ ds, p c = true) :
    (ds ++ rest).takeWhile p = ds ++ rest.takeWhile p := by
  induction ds with
  | nil => rfl
  | cons c t ih =>
      have hc : p c = true := h c (by simp)
      simp [List.takeWhile_cons, hc, ih (fun x hx => h x (by simp [hx]))]

theorem isSerialShape_of_parts (ds fs : List Char) (h5 : ds.length = 5)
    (hds : ∀ c ∈ ds, c.isDigit = true)
    (hfs : fs = [] ∨ ∃ gs, fs = '.' :: gs ∧ gs ≠ [] ∧ (∀ c ∈ gs, c.isDigit = true)) :
    isSerialShape (ds ++ fs) = true := by
  have htake : (ds ++ fs).takeWhile (fun c => c.isDigit) =
      ds ++ fs.takeWhile (fun c => c.isDigit) :=
    takeWhile_all_append _ ds fs hds
  rcases hfs with rfl | ⟨gs, rfl, hne, hgs⟩
  · rw [List.takeWhile_nil, List.append_nil] at htake
    simp only [List.append_nil] at htake ⊢
    simp only [isSerialShape, htake, List.drop_length]
    simp [h5]
  · obtain ⟨g, gs', rfl⟩ := List.exists_cons_of_ne_nil hne
    have hdot : (('.' :: g :: gs').takeWhile (fun c => c.isDigit)) = [] := by
      simp [List.takeWhile_cons]
    simp only [isSerialShape, htake, hdot, List.append_nil]
    rw [List.drop_left]
    simp [h5, List.all_eq_true, hgs]
    exact fun x hx => hgs x (by simp [hx])

/-- C9 counterexample: the raw value is not always passed through unchanged —
the empty (falsy) cell yields the sentinel "N/A" rather than itself, and a
padded non-serial string is returned trimmed. -/
theorem formatExcelDate_not_passthrough :
    formatExcelDate "" = DateOut.fixed "N/A" ∧
    DateOut.fixed "N/A" ≠ DateOut.fixed "" ∧
    formatExcelDate " abc " = DateOut.fixed "abc" ∧
    DateOut.fixed "abc" ≠ DateOut.fixed " abc " := by decide

/-- C9 (amended): `formatExcelDate` interprets the cell as a day-count serial
exactly when, after trimming, the string is five digits optionally followed
by a dot and at least one more digit and its parsed value lies strictly
between 29000 and 60000; it then hands `round((value - 25569) * 86400000)`
epoch-milliseconds to the locale renderer.  Every other value is returned as
the TRIMMED string — except that an empty (falsy) cell or the literal "N/A"
yields the sentinel "N/A" before any serial test. -/
theorem formatExcelDate_characterization (val : String) :
    (val = "" ∨ val = "N/A" → formatExcelDate val = DateOut.fixed "N/A") ∧
    (val ≠ "" → val ≠ "N/A" →
      (∀ ds fs q, (jsTrim val).toList = ds ++ fs → ds.length = 5 →
          (∀ c ∈ ds, c.isDigit = true) →
          (fs = [] ∨ ∃ gs, fs = '.' :: gs ∧ gs ≠ [] ∧ (∀ c ∈ gs, c.isDigit = true)) →
          jsParseFloat (jsTrim val) = some q → 29000 < q → q < 60000 →
          formatExcelDate val = DateOut.localeDate ⌊(q - 25569) * 86400 * 1000 + 1/2⌋) ∧
      (isSerialShape (jsTrim val).toList = false →
          formatExcelDate val = DateOut.fixed (jsTrim val)) ∧
      (∀ q, jsParseFloat (jsTrim val) = some q → ¬ (29000 < q ∧ q < 60000) →
          formatExcelDate val = DateOut.fixed (jsTrim val))) := by
  constructor
  · intro h
    unfold formatExcelDate
    rw [if_pos h]
  · intro hne hna
    have hgate : ¬ (val = "" ∨ val = "N/A") := by
      rintro (h | h)
      · exact hne h
      · exact hna h
    refine ⟨?_, ?_, ?_⟩
    · intro ds fs q hsplit h5 hds hfs hq hlo hhi
      have hshape : isSerialShape (jsTrim val).data = true := by
        show isSerialShape (jsTrim val).toList = true
        rw [hsplit]
        exact isSerialShape_of_parts ds fs h5 hds hfs
      simp [formatExcelDate, String.toList, hgate, hshape, hq, hlo, hhi]
    · intro hs
      have hs2 : isSerialShape (jsTrim val).data = false := hs
      simp [formatExcelDate, String.toList, hgate, hs2]
    · intro q hq hnot
      by_cases hs : isSerialShape (jsTrim val).data = true
      · simp [formatExcelDate, String.toList, hgate, hs, hq, hnot]
      · rw [Bool.not_eq_true] at hs
        simp [formatExcelDate, String.toList, hgate, hs]

/-- C9 witness: the serial characterization applied to the cell "44927",
whose value lies in the plausible range; the handed epoch-millisecond value
is (44927 - 25569) * 86400000 = 1672531200000. -/
theorem formatExcelDate_characterization_witness :
    formatExcelDate "44927" = DateOut.localeDate 1672531200000 := by
  have happ := ((formatExcelDate_characterization "44927").2 (by decide) (by decide)).1
    ['4', '4', '9', '2', '7'] [] (((44927:ℕ):ℚ)) rfl rfl (by decide) (Or.inl rfl) rfl
    (by norm_num) (by norm_num)
  rw [happ]
  congr 1
  rw [Int.floor_eq_iff]
  constructor
  · push_cast
    norm_num
  · push_cast
    norm_num
